import Mathlib

/-!
Verification of the mem0 benchmark harness
(src/sweetmcp-memory/benches/python_comparison/download_and_run_python_mem0.py).

The harness provisions an isolated copy of the reference implementation
(setup_mem0), runs timed operations against it via a generated benchmark
script (run_benchmarks), reduces latency sequences to summary statistics,
assembles a comparison report and persists it (format_comparison_results),
all orchestrated by main.

Latencies are modelled as rationals (exact arithmetic over the measured
millisecond values); the ambient random source is passed explicitly; the
filesystem effects of provisioning are modelled as an explicit state record;
JSON values are modelled by a small inductive with ordered key/value fields,
mirroring Python dict literals (insertion-ordered).
-/

namespace Mem0Bench

/-! ## Workload generator (generated benchmark script, lines 65-71) -/

/-- The population handed to random.choices in random_content:
string.ascii_letters + string.digits + a space (line 67). -/
def alphabet : List Char :=
  "abcdefghijklmnopqrstuvwxyzABCDEFGHIJKLMNOPQRSTUVWXYZ0123456789 ".data

/-- random_content (lines 65-67): joins size characters chosen by
random.choices from alphabet. The random source is modelled by pick:
the i-th choice takes the population element at index pick i reduced
modulo the population size, since random.choices only ever returns
members of the population it is given. -/
def random_content (size : Nat) (pick : Nat → Nat) : String :=
  String.mk ((List.range size).map fun i => alphabet.getD (pick i % alphabet.length) ' ')

/-- random_embedding (lines 69-71): a list comprehension of dim draws from
random.random, modelled by the draw stream rand. -/
def random_embedding (dim : Nat) (rand : Nat → ℚ) : List ℚ :=
  (List.range dim).map rand

/-! ## Statistics aggregator (the summary block of lines 86-91, repeated
verbatim at lines 111-116 and 140-145) -/

/-- Failure of the statistics block. On an empty latency sequence the Python
expression sum(times) / len(times) raises ZeroDivisionError (and
sorted(times)[len(times) // 2], min(times), max(times) would raise as well);
this is the EmptyInputError of the spec and the only failing case. -/
inductive AggError where
  | emptyInput
deriving Repr, DecidableEq

/-- The record built at lines 86-91. -/
structure SummaryStatistic where
  mean_ms : ℚ
  median_ms : ℚ
  min_ms : ℚ
  max_ms : ℚ
deriving Repr, DecidableEq

/-- The statistics-reduction block of benchmark_memory_creation (lines 86-91),
shared verbatim by benchmark_memory_with_embedding and
benchmark_memory_retrieval. Python's sorted (stable, ascending) is modelled
by insertionSort; min/max over a nonempty iterable are folds of the binary
min/max; the empty case fails as described at AggError. -/
def summarize : List ℚ → Except AggError SummaryStatistic
  | [] => .error .emptyInput
  | t :: ts =>
      .ok { mean_ms := (t :: ts).sum / ((t :: ts).length : ℚ)
          , median_ms := (List.insertionSort (· ≤ ·) (t :: ts)).getD ((t :: ts).length / 2) 0
          , min_ms := ts.foldl min t
          , max_ms := ts.foldl max t }

/-! ## Environment provisioner (setup_mem0, lines 17-46; detection in main,
lines 230-237) -/

/-- State of the vendored mem0 directory tree: whether vendor/mem0 exists,
whether vendor/mem0/venv exists, whether the editable mem0 install and the
numpy install into that venv completed. -/
structure FsState where
  mem0Exists : Bool
  venvExists : Bool
  mem0Installed : Bool
  numpyInstalled : Bool
deriving Repr, DecidableEq

/-- Success or failure of each external command setup_mem0 would run, in
order: git clone, python -m venv, pip install -e, pip install numpy. -/
structure StepOutcomes where
  cloneOk : Bool
  venvOk : Bool
  pipInstallOk : Bool
  numpyInstallOk : Bool
deriving Repr, DecidableEq

/-- The CalledProcessError raised by subprocess.run(check=True) at the first
failing provisioning command (the ProvisioningError of the spec). -/
inductive ProvisioningError where
  | cloneFailed
  | venvFailed
  | installFailed
  | numpyInstallFailed
deriving Repr, DecidableEq

/-- Result of one provisioning attempt: the filesystem state it leaves
behind, whether it raised, and how many fetch (git clone) and install (pip
install) phases it entered. -/
structure ProvisionResult where
  fs : FsState
  result : Except ProvisioningError Unit
  fetchSteps : Nat
  installSteps : Nat

/-- setup_mem0 (lines 17-46): removes any existing mem0 directory (lines
25-27), clones the repository (lines 31-33), creates the virtual environment
(line 38), installs mem0 editable then numpy (lines 43-44), each via
subprocess.run(check=True): the first failing command raises and aborts the
remaining steps, leaving the directories created so far in place. -/
def setup_mem0 (fs : FsState) (o : StepOutcomes) : ProvisionResult :=
  let fs0 : FsState := if fs.mem0Exists then ⟨false, false, false, false⟩ else fs
  if !o.cloneOk then ⟨fs0, .error .cloneFailed, 1, 0⟩
  else if !o.venvOk then ⟨⟨true, false, false, false⟩, .error .venvFailed, 1, 0⟩
  else if !o.pipInstallOk then ⟨⟨true, true, false, false⟩, .error .installFailed, 1, 1⟩
  else if !o.numpyInstallOk then ⟨⟨true, true, true, false⟩, .error .numpyInstallFailed, 1, 1⟩
  else ⟨⟨true, true, true, true⟩, .ok (), 1, 1⟩

/-- The detection main performs at lines 230-234: the environment counts as
already installed exactly when the mem0 directory and its venv directory
both exist. -/
def detectInstalled (fs : FsState) : Bool :=
  fs.mem0Exists && fs.venvExists

/-- The provisioning step of main (lines 230-237): reuse the environment
when detectInstalled holds, otherwise run setup_mem0. -/
def provision (fs : FsState) (o : StepOutcomes) : ProvisionResult :=
  if detectInstalled fs then ⟨fs, .ok (), 0, 0⟩ else setup_mem0 fs o

/-! ## JSON values (Python dict / list literals written by the harness) -/

/-- JSON values as built by the harness: numbers, strings and objects with
insertion-ordered key/value fields, mirroring Python dict literals. -/
inductive Json where
  | num (q : ℚ)
  | str (s : String)
  | obj (fields : List (String × Json))

mutual

/-- The key k occurs as the key of some object somewhere inside the value. -/
def Json.hasKeyDeep (k : String) : Json → Bool
  | .num _ => false
  | .str _ => false
  | .obj fs => hasKeyFields k fs

/-- The key k occurs as a key of the field list itself or somewhere inside
one of its values. -/
def hasKeyFields (k : String) : List (String × Json) → Bool
  | [] => false
  | (k₀, v) :: rest => k₀ == k || v.hasKeyDeep k || hasKeyFields k rest

end

/-- Top-level keys of a JSON object, in insertion order. -/
def Json.topKeys : Json → List String
  | .obj fs => fs.map Prod.fst
  | .num _ => []
  | .str _ => []

/-- Value held by a top-level key of a JSON object. -/
def Json.getKey (j : Json) (k : String) : Option Json :=
  match j with
  | .obj fs => fs.lookup k
  | .num _ => none
  | .str _ => none

/-! ## Comparison assembler and serializer (format_comparison_results,
lines 191-226) -/

/-- One zero-valued summary entry of the comparison section (lines
208-210). -/
def zeroSummaryEntry : Json :=
  .obj [("python_avg_ms", .num 0), ("rust_avg_ms", .num 0), ("speedup_factor", .num 0)]

/-- The rust_results placeholder written unconditionally (lines 199-203):
both suite keys present, each holding an empty object. -/
def rustResultsPlaceholder : Json :=
  .obj [("memory_creation", .obj []), ("memory_with_embedding", .obj [])]

/-- The comparison section (lines 204-212). -/
def comparisonSection : Json :=
  .obj [ ("memory_creation", .obj [])
       , ("memory_with_embedding", .obj [])
       , ("summary", .obj [ ("memory_creation", zeroSummaryEntry)
                          , ("memory_with_embedding", zeroSummaryEntry)
                          , ("overall", zeroSummaryEntry) ]) ]

/-- The report dict built by format_comparison_results (lines 194-213).
The lookups of the two suites mirror the subscripts of lines 196-197, which
raise KeyError when a suite key is absent from mem0_results. There is no
candidate-side input: rust_results is always the placeholder. -/
def format_comparison_results (mem0_results : List (String × Json)) : Option Json :=
  match mem0_results.lookup "memory_creation", mem0_results.lookup "memory_with_embedding" with
  | some mc, some mwe =>
      some (.obj [ ("python_results", .obj [ ("memory_creation", mc)
                                           , ("memory_with_embedding", mwe) ])
                 , ("rust_results", rustResultsPlaceholder)
                 , ("comparison", comparisonSection) ])
  | _, _ => none

/-- The output path used by format_comparison_results (lines 216-223): the
benchmark_results directory plus a file name embedding the second-resolution
timestamp datetime.now().strftime of "%Y%m%d_%H%M%S". The path depends on
nothing besides that timestamp string. -/
def persist_path (timestamp : String) : String :=
  "benchmark_results/python_mem0_results_" ++ timestamp ++ ".json"

/-- The combined raw results dict of the generated script (lines 158-163):
all three benchmarked suites, memory_retrieval included. -/
def all_results (creation embedding retrieval : Json) : List (String × Json) :=
  [ ("memory_creation", creation)
  , ("memory_with_embedding", embedding)
  , ("memory_retrieval", retrieval) ]

/-! ## Orchestration (run_benchmarks, lines 48-189; main, lines 228-249) -/

/-- Observable outcome of the benchmark subprocess run by run_benchmarks:
its exit code, whether the expected results file exists afterwards, and the
parsed suite map that file holds when present. -/
structure BenchOutcome where
  returncode : Int
  resultsFilePresent : Bool
  results : List (String × Json)

/-- The exceptions main can catch: a provisioning failure, the explicit
raise at line 182 on a non-zero benchmark exit, a FileNotFoundError reading
the results file (lines 185-187), and a KeyError in
format_comparison_results (lines 196-197). -/
inductive RunError where
  | provisioning (e : ProvisioningError)
  | benchmarkFailed
  | missingArtifact
  | missingSuiteKey
deriving Repr, DecidableEq

/-- run_benchmarks (lines 174-189): runs the generated script; a non-zero
exit raises at line 182; otherwise the results file is read, raising when it
is absent. -/
def run_benchmarks (b : BenchOutcome) : Except RunError (List (String × Json)) :=
  if b.returncode ≠ 0 then .error .benchmarkFailed
  else if !b.resultsFilePresent then .error .missingArtifact
  else .ok b.results

/-- Everything one run of main depends on. -/
structure RunConfig where
  fs0 : FsState
  steps : StepOutcomes
  bench : BenchOutcome
  timestamp : String

/-- main (lines 228-249): provision, run benchmarks, format and persist the
comparison report. The first component is the outcome of the try block (the
persisted report path on success); the second records whether the
comparison-report file was written. -/
def main (c : RunConfig) : Except RunError String × Bool :=
  match (provision c.fs0 c.steps).result with
  | .error e => (.error (.provisioning e), false)
  | .ok () =>
    match run_benchmarks c.bench with
    | .error e => (.error e, false)
    | .ok results =>
      match format_comparison_results results with
      | none => (.error .missingSuiteKey, false)
      | some _ => (.ok (persist_path c.timestamp), true)

/-- Process exit code (lines 245-249): 0 when the try block completes, 1 via
sys.exit(1) when any exception is caught. -/
def exit_code (c : RunConfig) : Nat :=
  match (main c).1 with
  | .ok _ => 0
  | .error _ => 1

/-! ## Helper lemmas: folds of binary min/max over a list compute the
extrema, as Python's min/max builtins do over a nonempty iterable. -/

theorem foldl_min_le_init (a : ℚ) (l : List ℚ) : l.foldl min a ≤ a := by
  induction l generalizing a with
  | nil => exact le_rfl
  | cons x xs ih => exact le_trans (ih (min a x)) (min_le_left a x)

theorem foldl_min_le_mem (a x : ℚ) (l : List ℚ) (hx : x ∈ l) : l.foldl min a ≤ x := by
  induction l generalizing a with
  | nil => cases hx
  | cons y ys ih =>
    simp only [List.foldl_cons]
    rcases List.mem_cons.mp hx with rfl | h
    · exact le_trans (foldl_min_le_init _ _) (min_le_right a x)
    · exact ih _ h

theorem foldl_min_mem (a : ℚ) (l : List ℚ) : l.foldl min a = a ∨ l.foldl min a ∈ l := by
  induction l generalizing a with
  | nil => exact Or.inl rfl
  | cons x xs ih =>
    simp only [List.foldl_cons]
    rcases ih (min a x) with h | h
    · rw [h]
      rcases min_choice a x with h₂ | h₂
      · exact Or.inl h₂
      · exact Or.inr (by rw [h₂]; exact List.mem_cons_self x xs)
    · exact Or.inr (List.mem_cons_of_mem x h)

theorem le_foldl_max_init (a : ℚ) (l : List ℚ) : a ≤ l.foldl max a := by
  induction l generalizing a with
  | nil => exact le_rfl
  | cons x xs ih => exact le_trans (le_max_left a x) (ih (max a x))

theorem mem_le_foldl_max (a x : ℚ) (l : List ℚ) (hx : x ∈ l) : x ≤ l.foldl max a := by
  induction l generalizing a with
  | nil => cases hx
  | cons y ys ih =>
    simp only [List.foldl_cons]
    rcases List.mem_cons.mp hx with rfl | h
    · exact le_trans (le_max_right a x) (le_foldl_max_init _ _)
    · exact ih _ h

theorem foldl_max_mem (a : ℚ) (l : List ℚ) : l.foldl max a = a ∨ l.foldl max a ∈ l := by
  induction l generalizing a with
  | nil => exact Or.inl rfl
  | cons x xs ih =>
    simp only [List.foldl_cons]
    rcases ih (max a x) with h | h
    · rw [h]
      rcases max_choice a x with h₂ | h₂
      · exact Or.inl h₂
      · exact Or.inr (by rw [h₂]; exact List.mem_cons_self x xs)
    · exact Or.inr (List.mem_cons_of_mem x h)

/-! ## Claim theorems: statistics aggregator -/

/-- C4: summarize applied to the empty latency sequence fails with
EmptyInputError, and non-emptiness is the only precondition: every non-empty
sequence produces a summary. -/
theorem summarize_empty_only_precondition :
    summarize [] = .error .emptyInput ∧
    ∀ (l : List ℚ), l ≠ [] → ∃ s, summarize l = .ok s := by
  refine ⟨rfl, ?_⟩
  intro l hl
  match l with
  | [] => exact absurd rfl hl
  | t :: ts => exact ⟨_, rfl⟩

theorem summarize_empty_only_precondition_witness :
    ∃ s, summarize [(5 : ℚ)] = .ok s :=
  summarize_empty_only_precondition.2 [(5 : ℚ)] (by simp)

/-- C6: for every non-empty latency sequence of length n, summarize returns
as median_ms the element at index floor(n/2) of the ascending-sorted
sequence (upper median for even n), as mean_ms the arithmetic mean, and as
min_ms/max_ms the sequence extrema; concretely summarize [10, 20, 30, 40]
yields mean 25, median 30, min 10, max 40. -/
theorem summarize_stats_correct :
    (∀ (t : ℚ) (ts : List ℚ), ∃ s sorted,
      summarize (t :: ts) = .ok s ∧
      List.Perm (t :: ts) sorted ∧
      sorted.Sorted (· ≤ ·) ∧
      s.median_ms = sorted.getD ((t :: ts).length / 2) 0 ∧
      s.mean_ms = (t :: ts).sum / ((t :: ts).length : ℚ) ∧
      s.min_ms ∈ t :: ts ∧ (∀ x ∈ t :: ts, s.min_ms ≤ x) ∧
      s.max_ms ∈ t :: ts ∧ (∀ x ∈ t :: ts, x ≤ s.max_ms)) ∧
    summarize [10, 20, 30, 40] = .ok ⟨25, 30, 10, 40⟩ := by
  constructor
  · intro t ts
    refine ⟨_, List.insertionSort (· ≤ ·) (t :: ts), rfl,
      (List.perm_insertionSort _ _).symm, List.sorted_insertionSort _ _,
      rfl, rfl, ?_, ?_, ?_, ?_⟩
    · show ts.foldl min t ∈ t :: ts
      rcases foldl_min_mem t ts with h | h
      · rw [h]; exact List.mem_cons_self t ts
      · exact List.mem_cons_of_mem t h
    · intro x hx
      show ts.foldl min t ≤ x
      rcases List.mem_cons.mp hx with rfl | h
      · exact foldl_min_le_init x ts
      · exact foldl_min_le_mem t x ts h
    · show ts.foldl max t ∈ t :: ts
      rcases foldl_max_mem t ts with h | h
      · rw [h]; exact List.mem_cons_self t ts
      · exact List.mem_cons_of_mem t h
    · intro x hx
      show x ≤ ts.foldl max t
      rcases List.mem_cons.mp hx with rfl | h
      · exact le_foldl_max_init x ts
      · exact mem_le_foldl_max t x ts h
  · simp only [summarize]
    refine congrArg Except.ok ?_
    congr 1
    norm_num

/-! ## Claim theorems: workload generator -/

/-- C8: random_content returns a string of length exactly size whose every
character belongs to the alphanumeric-plus-space alphabet, for every size
and every random source. -/
theorem random_content_spec (size : Nat) (pick : Nat → Nat) :
    (random_content size pick).length = size ∧
    ∀ c ∈ (random_content size pick).data, c ∈ alphabet := by
  constructor
  · show ((List.range size).map _).length = size
    simp
  · intro c hc
    have hc₂ : c ∈ (List.range size).map
        (fun i => alphabet.getD (pick i % alphabet.length) ' ') := hc
    simp only [List.mem_map] at hc₂
    obtain ⟨i, _, rfl⟩ := hc₂
    by_cases h : pick i % alphabet.length < alphabet.length
    · rw [List.getD_eq_getElem _ _ h]
      exact List.getElem_mem h
    · rw [List.getD_eq_default _ _ (le_of_not_lt h)]
      decide

theorem random_content_spec_witness :
    (random_content 2 Nat.succ).length = 2 ∧
    ∀ c ∈ (random_content 2 Nat.succ).data, c ∈ alphabet :=
  random_content_spec 2 Nat.succ

/-- C9: random_embedding returns exactly dim values, each in the half-open
range [0, 1), for every dim and every random source whose draws lie in
[0, 1) as random.random's do. -/
theorem random_embedding_spec (dim : Nat) (rand : Nat → ℚ)
    (h : ∀ i, 0 ≤ rand i ∧ rand i < 1) :
    (random_embedding dim rand).length = dim ∧
    ∀ x ∈ random_embedding dim rand, 0 ≤ x ∧ x < 1 := by
  refine ⟨by simp [random_embedding], ?_⟩
  intro x hx
  simp only [random_embedding, List.mem_map] at hx
  obtain ⟨i, _, rfl⟩ := hx
  exact h i

theorem random_embedding_spec_witness :
    (random_embedding 3 (fun _ => (1 : ℚ) / 2)).length = 3 ∧
    ∀ x ∈ random_embedding 3 (fun _ => (1 : ℚ) / 2), 0 ≤ x ∧ x < 1 :=
  random_embedding_spec 3 (fun _ => (1 : ℚ) / 2) (fun _ => by norm_num)

theorem summarize_stats_correct_witness :
    ∃ s sorted, summarize [(3 : ℚ)] = .ok s ∧
      List.Perm [(3 : ℚ)] sorted ∧
      sorted.Sorted (· ≤ ·) ∧
      s.median_ms = sorted.getD (([(3 : ℚ)].length) / 2) 0 ∧
      s.mean_ms = [(3 : ℚ)].sum / (([(3 : ℚ)].length : ℚ)) ∧
      s.min_ms ∈ [(3 : ℚ)] ∧ (∀ x ∈ [(3 : ℚ)], s.min_ms ≤ x) ∧
      s.max_ms ∈ [(3 : ℚ)] ∧ (∀ x ∈ [(3 : ℚ)], x ≤ s.max_ms) :=
  summarize_stats_correct.1 3 []

/-! ## Claim theorems: environment provisioner -/

/-- C1 fails on the code: with a fresh vendor tree, when git clone and venv
creation succeed but pip install fails, setup_mem0 aborts with a
ProvisioningError as claimed, yet it leaves both directories in place, and
the next run's existence-only detection then treats the partial,
not-installed environment as installed and skips provisioning entirely. -/
theorem provision_partial_env_detected_installed :
    (setup_mem0 ⟨false, false, false, false⟩ ⟨true, true, false, true⟩).result
      = .error .installFailed ∧
    (setup_mem0 ⟨false, false, false, false⟩ ⟨true, true, false, true⟩).fs
      = ⟨true, true, false, false⟩ ∧
    detectInstalled ⟨true, true, false, false⟩ = true ∧
    (⟨true, true, false, false⟩ : FsState).mem0Installed = false ∧
    provision ⟨true, true, false, false⟩ ⟨true, true, true, true⟩
      = ⟨⟨true, true, false, false⟩, .ok (), 0, 0⟩ :=
  ⟨rfl, rfl, rfl, rfl, rfl⟩

/-- C2: provisioning is idempotent: when the target directory already holds
an installed environment (both directories present), provision performs no
fetch and no install and returns the state unchanged; and across two
consecutive calls of which the first succeeds, the second is a no-op on the
same state, so the install step runs at most once in total. -/
theorem provision_idempotent (fs : FsState) (o o₂ : StepOutcomes) :
    (fs.mem0Exists = true → fs.venvExists = true →
      provision fs o = ⟨fs, .ok (), 0, 0⟩) ∧
    ((provision fs o).result = .ok () →
      provision (provision fs o).fs o₂ = ⟨(provision fs o).fs, .ok (), 0, 0⟩ ∧
      (provision fs o).installSteps + (provision (provision fs o).fs o₂).installSteps
        = (provision fs o).installSteps ∧
      (provision fs o).installSteps ≤ 1) := by
  constructor
  · intro h1 h2
    simp [provision, detectInstalled, h1, h2]
  · intro hok
    rcases fs with ⟨m, v, i, n⟩
    rcases o with ⟨c, vo, p, nn⟩
    cases m <;> cases v <;> cases c <;> cases vo <;> cases p <;> cases nn <;>
      simp_all [provision, setup_mem0, detectInstalled]

theorem provision_idempotent_witness :
    provision ⟨true, true, true, true⟩ ⟨true, true, true, true⟩
      = ⟨⟨true, true, true, true⟩, .ok (), 0, 0⟩ ∧
    (provision ⟨false, false, false, false⟩ ⟨true, true, true, true⟩).installSteps ≤ 1 := by
  refine ⟨(provision_idempotent ⟨true, true, true, true⟩ ⟨true, true, true, true⟩
      ⟨true, true, true, true⟩).1 rfl rfl, ?_⟩
  exact ((provision_idempotent ⟨false, false, false, false⟩ ⟨true, true, true, true⟩
      ⟨true, true, true, true⟩).2 rfl).2.2

/-! ## Claim theorems: comparison assembler and serializer -/

/-- C3: for every raw results input holding the two suites, the assembled
report has exactly the three top-level keys python_results, rust_results and
comparison; the rust_results key is present, holding the placeholder with
both suite keys; and the comparison summary entries are explicit zero-valued
placeholders. The code takes no candidate-side input at all, so the
candidate side is the placeholder for every input, in particular an
unavailable one. -/
theorem report_shape_stable (res : List (String × Json)) (mc mwe : Json)
    (h1 : res.lookup "memory_creation" = some mc)
    (h2 : res.lookup "memory_with_embedding" = some mwe) :
    ∃ r, format_comparison_results res = some r ∧
      r.topKeys = ["python_results", "rust_results", "comparison"] ∧
      r.getKey "rust_results" = some rustResultsPlaceholder ∧
      rustResultsPlaceholder.topKeys = ["memory_creation", "memory_with_embedding"] ∧
      comparisonSection.getKey "summary"
        = some (.obj [ ("memory_creation", zeroSummaryEntry)
                     , ("memory_with_embedding", zeroSummaryEntry)
                     , ("overall", zeroSummaryEntry) ]) ∧
      zeroSummaryEntry
        = .obj [("python_avg_ms", .num 0), ("rust_avg_ms", .num 0), ("speedup_factor", .num 0)] := by
  refine ⟨.obj [ ("python_results", .obj [ ("memory_creation", mc)
                                         , ("memory_with_embedding", mwe) ])
               , ("rust_results", rustResultsPlaceholder)
               , ("comparison", comparisonSection) ], ?_, ?_, ?_, ?_, ?_, rfl⟩
  · simp [format_comparison_results, h1, h2]
  · simp [Json.topKeys]
  · simp [Json.getKey, List.lookup]
  · simp [rustResultsPlaceholder, Json.topKeys]
  · simp [comparisonSection, Json.getKey, List.lookup]

theorem report_shape_stable_witness :
    ∃ r, format_comparison_results
        [("memory_creation", .obj []), ("memory_with_embedding", .obj [])] = some r ∧
      r.topKeys = ["python_results", "rust_results", "comparison"] ∧
      r.getKey "rust_results" = some rustResultsPlaceholder ∧
      rustResultsPlaceholder.topKeys = ["memory_creation", "memory_with_embedding"] ∧
      comparisonSection.getKey "summary"
        = some (.obj [ ("memory_creation", zeroSummaryEntry)
                     , ("memory_with_embedding", zeroSummaryEntry)
                     , ("overall", zeroSummaryEntry) ]) ∧
      zeroSummaryEntry
        = .obj [("python_avg_ms", .num 0), ("rust_avg_ms", .num 0), ("speedup_factor", .num 0)] :=
  report_shape_stable [("memory_creation", .obj []), ("memory_with_embedding", .obj [])]
    (.obj []) (.obj []) (by simp [List.lookup]) (by simp [List.lookup])

/-- C5 fails on the code: the persisted path is a pure function of the
second-resolution timestamp, so two persist calls within the same wall-clock
second produce the same path, not distinct ones; no disambiguating suffix is
ever appended. -/
theorem persist_path_same_second_collision :
    ¬ (persist_path "20250101_120000" ≠ persist_path "20250101_120000") ∧
    persist_path "20250101_120000"
      = "benchmark_results/python_mem0_results_20250101_120000.json" :=
  ⟨fun h => h rfl, rfl⟩

/-- C5 amended: two persist calls produce distinct file paths exactly when
their second-resolution timestamps differ; within the same second the paths
coincide and the later write silently overwrites the earlier artifact. -/
theorem persist_path_distinct_iff (t₁ t₂ : String) :
    persist_path t₁ = persist_path t₂ ↔ t₁ = t₂ := by
  constructor
  · intro h
    have h₂ := congrArg String.data h
    simp only [persist_path, String.data_append] at h₂
    rw [List.append_left_inj, List.append_right_inj] at h₂
    cases t₁
    cases t₂
    exact congrArg String.mk h₂
  · intro h
    rw [h]

/-- C10: the report assembled from the combined raw results keeps exactly
the suites memory_creation and memory_with_embedding under python_results,
while memory_retrieval — benchmarked and present in the raw intermediate
results — appears nowhere in the report, provided it does not occur inside
the two kept suite values themselves. -/
theorem report_excludes_memory_retrieval (creation embedding retrieval : Json)
    (hc : creation.hasKeyDeep "memory_retrieval" = false)
    (he : embedding.hasKeyDeep "memory_retrieval" = false) :
    (all_results creation embedding retrieval).lookup "memory_retrieval" = some retrieval ∧
    ∃ r, format_comparison_results (all_results creation embedding retrieval) = some r ∧
      (r.getKey "python_results").map Json.topKeys
        = some ["memory_creation", "memory_with_embedding"] ∧
      r.hasKeyDeep "memory_retrieval" = false := by
  refine ⟨by simp [all_results, List.lookup],
    .obj [ ("python_results", .obj [ ("memory_creation", creation)
                                   , ("memory_with_embedding", embedding) ])
         , ("rust_results", rustResultsPlaceholder)
         , ("comparison", comparisonSection) ], ?_, ?_, ?_⟩
  · simp [format_comparison_results, all_results, List.lookup]
  · simp [Json.getKey, List.lookup, Json.topKeys]
  · simp [Json.hasKeyDeep, hasKeyFields, rustResultsPlaceholder, comparisonSection,
      zeroSummaryEntry, hc, he]

theorem report_excludes_memory_retrieval_witness :
    (all_results (.obj []) (.obj []) (.obj [])).lookup "memory_retrieval" = some (.obj []) ∧
    ∃ r, format_comparison_results (all_results (.obj []) (.obj []) (.obj [])) = some r ∧
      (r.getKey "python_results").map Json.topKeys
        = some ["memory_creation", "memory_with_embedding"] ∧
      r.hasKeyDeep "memory_retrieval" = false :=
  report_excludes_memory_retrieval (.obj []) (.obj []) (.obj [])
    (by simp [Json.hasKeyDeep, hasKeyFields]) (by simp [Json.hasKeyDeep, hasKeyFields])

/-! ## Claim theorems: orchestration -/

/-- C7: every error is fatal to the run: whenever any step of main fails,
the process exit code is 1 and no comparison-report artifact is written;
in particular a non-zero benchmark exit after successful provisioning, and
any provisioning failure, each surface as such an error. -/
theorem errors_fatal_no_artifact (c : RunConfig) :
    (∀ e, (main c).1 = .error e → exit_code c = 1 ∧ (main c).2 = false) ∧
    ((provision c.fs0 c.steps).result = .ok () → c.bench.returncode ≠ 0 →
      (main c).1 = .error .benchmarkFailed) ∧
    (∀ e, (provision c.fs0 c.steps).result = .error e →
      (main c).1 = .error (.provisioning e)) := by
  have hm : ∀ e, (main c).1 = .error e → (main c).2 = false := by
    intro e he
    unfold main at he ⊢
    rcases hp : (provision c.fs0 c.steps).result with pe | pu
    · simp [hp]
    · simp only [hp] at he ⊢
      rcases hb : run_benchmarks c.bench with be | results
      · simp [hb]
      · simp only [hb] at he ⊢
        rcases hf : format_comparison_results results with _ | r
        · simp [hf]
        · simp [hf] at he
  refine ⟨fun e he => ⟨by simp [exit_code, he], hm e he⟩, ?_, ?_⟩
  · intro hp hb
    unfold main
    rw [hp]
    simp [run_benchmarks, hb]
  · intro e hp
    unfold main
    rw [hp]

theorem errors_fatal_no_artifact_witness :
    (main ⟨⟨true, true, true, true⟩, ⟨true, true, true, true⟩, ⟨1, true, []⟩,
        "20250101_120000"⟩).1 = .error .benchmarkFailed ∧
    exit_code ⟨⟨true, true, true, true⟩, ⟨true, true, true, true⟩, ⟨1, true, []⟩,
        "20250101_120000"⟩ = 1 ∧
    (main ⟨⟨true, true, true, true⟩, ⟨true, true, true, true⟩, ⟨1, true, []⟩,
        "20250101_120000"⟩).2 = false := by
  have h := errors_fatal_no_artifact
    ⟨⟨true, true, true, true⟩, ⟨true, true, true, true⟩, ⟨1, true, []⟩, "20250101_120000"⟩
  have h₁ := h.2.1 rfl (by decide)
  exact ⟨h₁, (h.1 _ h₁).1, (h.1 _ h₁).2⟩

end Mem0Bench
